import Mathlib

/-!
Verification of the plakar snapshot engine's specification against a shallow
embedding of its Go source.

The embedding translates, from the source files:
- the repository-state stream codec (`state` package): `DeltaEntry` fixed-width
  serialization, `SerializeToStream` / `deserializeFromStream`, `UpdateSerialOr`;
- the snapshot backup pipeline (`snapshot` package): `PutPackfile` assembly,
  the importer scan-error dispatch, `chunkify`, the VFS-cache reuse decision,
  and the directory roll-up's error counting;
- the scan cache (`caching` package): `get` / `GetFile` / `GetDirectory` /
  `GetSummary` / `GetChecksum`.

Bytes are modelled as `Nat` values (well-formedness predicates bound them below
256 where it matters), byte strings as `List Nat`, Go strings as `List Char`,
and machine integers as `Nat`/`Int` with explicit reductions modulo `2 ^ w`.
MAC computation and the aggregate state's membership test are abstracted as
function parameters, since only their call sites are part of the examined
source. Definitions whose doc comment starts with `Modelled from the spec:`
embed code of the repository that is outside the examined source tree and
follow the specification text instead.
-/

set_option autoImplicit false

namespace Plakar

/-- Go strings, as lists of characters (inputs of interest are ASCII, where
Go's byte-wise comparison and the character-wise one agree). -/
abbrev Str := List Char

/-- Little-endian 4-byte encoding, as written by `binary.LittleEndian.PutUint32`. -/
def u32le (n : Nat) : List Nat :=
  [n % 256, n / 256 % 256, n / 2 ^ 16 % 256, n / 2 ^ 24 % 256]

/-- Little-endian 8-byte encoding, as written by `binary.LittleEndian.PutUint64`. -/
def u64le (n : Nat) : List Nat :=
  [n % 256, n / 256 % 256, n / 2 ^ 16 % 256, n / 2 ^ 24 % 256,
   n / 2 ^ 32 % 256, n / 2 ^ 40 % 256, n / 2 ^ 48 % 256, n / 2 ^ 56 % 256]

/-- Little-endian decoding of a byte list (`binary.LittleEndian.Uint32`/`Uint64`
applied to a slice of the matching width). -/
def leNat : List Nat → Nat
  | [] => 0
  | b :: bs => b + 256 * leNat bs

/-- Go's conversion `uint64(t)` of an `int64` value: the two's-complement bit
pattern, i.e. the representative of `t` modulo `2 ^ 64`. -/
def int64ToUint64 (t : Int) : Nat :=
  (t % (2 ^ 64 : Int)).toNat

/-- Go's conversion `int64(u)` of a `uint64` value. -/
def uint64ToInt64 (u : Nat) : Int :=
  if u < 2 ^ 63 then (u : Int) else (u : Int) - 2 ^ 64

/-- The last `n` elements of a list (the tail a reader parsing from the end of
a file sees). -/
def lastN (n : Nat) (l : List Nat) : List Nat :=
  l.drop (l.length - n)

/-! ## Repository state (`state` package) -/

/-- Constant `VERSION` of the state package. -/
def stateVERSION : Nat := 100

/-- Entry-type tag `ET_METADATA`. -/
def ET_METADATA : Nat := 1

/-- Entry-type tag `ET_LOCATIONS`. -/
def ET_LOCATIONS : Nat := 2

/-- Entry-type tag `ET_TIMESTAMP` (declared by the source, never written). -/
def ET_TIMESTAMP : Nat := 3

/-- A blob location inside a packfile: `Location{Packfile, Offset, Length}`. -/
structure Location where
  packfile : List Nat
  offset : Nat
  length : Nat
deriving DecidableEq

/-- A delta entry `DeltaEntry{Type, Blob, Location}`; `typ` stands for the Go
field `Type`, whose name Lean reserves. -/
structure DeltaEntry where
  typ : Nat
  blob : List Nat
  location : Location
deriving DecidableEq

/-- Constant `LocationSerializedSize`. -/
def LocationSerializedSize : Nat := 32 + 4 + 4

/-- Constant `DeltaEntrySerializedSize`. -/
def DeltaEntrySerializedSize : Nat := 1 + 32 + LocationSerializedSize

/-- State metadata `Metadata{Version, Timestamp, Aggregate, Serial}`; the
timestamp is kept as its `UnixNano` value, the serial as its 16 raw bytes. -/
structure Metadata where
  version : Nat
  timestamp : Int
  aggregate : Bool
  serial : List Nat
deriving DecidableEq

/-- Well-formedness of a delta entry as the Go types guarantee it: the type
fits a byte, MACs are 32 bytes wide, offset and length fit `uint32`. -/
abbrev DeltaEntry.WF (de : DeltaEntry) : Prop :=
  de.typ < 256 ∧ de.blob.length = 32 ∧ de.location.packfile.length = 32 ∧
    de.location.offset < 2 ^ 32 ∧ de.location.length < 2 ^ 32

/-- Well-formedness of metadata as the Go types guarantee it. -/
abbrev Metadata.WF (md : Metadata) : Prop :=
  md.version < 2 ^ 32 ∧ -(2 ^ 63) ≤ md.timestamp ∧ md.timestamp < 2 ^ 63 ∧
    md.serial.length = 16

/-- Serialization `DeltaEntry.ToBytes`: type byte, blob, packfile, then the two
little-endian `uint32` fields. -/
def DeltaEntry.ToBytes (de : DeltaEntry) : List Nat :=
  [de.typ % 256] ++ de.blob ++ de.location.packfile ++
    u32le de.location.offset ++ u32le de.location.length

/-- Parser `DeltaEntryFromBytes`: reads the type byte, two 32-byte MACs and the
two `uint32` fields, failing on a short read exactly where the Go code does. -/
def DeltaEntryFromBytes : List Nat → Option DeltaEntry
  | [] => none
  | t :: rest =>
    if rest.length < 32 then none
    else if (rest.drop 32).length < 32 then none
    else if ((rest.drop 32).drop 32).length < 8 then none
    else
      some { typ := t, blob := rest.take 32,
             location := { packfile := (rest.drop 32).take 32,
                           offset := leNat (((rest.drop 32).drop 32).take 4),
                           length := leNat ((((rest.drop 32).drop 32).drop 4).take 4) } }

/-- Serializer `LocalState.SerializeToStream`: each cached delta buffer behind
an `ET_LOCATIONS` tag, then the `ET_METADATA` tag followed by version,
`UnixNano` timestamp, aggregate flag and serial. -/
def SerializeToStream (deltas : List (List Nat)) (md : Metadata) : List Nat :=
  ((deltas.map (fun e => ET_LOCATIONS :: e)).flatten) ++
    ET_METADATA :: (u32le md.version ++ u64le (int64ToUint64 md.timestamp) ++
      [if md.aggregate then 1 else 0] ++ md.serial)

/-- Tag-reading loop of `LocalState.deserializeFromStream`: a tag equal to
`ET_METADATA` stops the loop; any other tag is followed by reading a full
73-byte delta entry (the source never compares the tag to `ET_LOCATIONS`).
The fuel argument only bounds recursion; one unit is spent per tag and the
stream length is always a sufficient budget. -/
def deserializeLoop : Nat → List Nat → Option (List (List Nat) × List Nat)
  | _, [] => none
  | 0, _ :: _ => none
  | fuel + 1, t :: rest =>
    if t = ET_METADATA then some ([], rest)
    else if 73 ≤ rest.length then
      match DeltaEntryFromBytes (rest.take 73) with
      | none => none
      | some _ =>
        match deserializeLoop fuel (rest.drop 73) with
        | none => none
        | some (es, r) => some (rest.take 73 :: es, r)
    else none

/-- Metadata tail of `LocalState.deserializeFromStream`: version, timestamp,
aggregate flag and serial, each failing on a short read. -/
def parseMetadata (s : List Nat) : Option Metadata :=
  if s.length < 4 then none
  else if (s.drop 4).length < 8 then none
  else if ((s.drop 4).drop 8).length < 1 then none
  else if (((s.drop 4).drop 8).drop 1).length < 16 then none
  else
    some { version := leNat (s.take 4),
           timestamp := uint64ToInt64 (leNat ((s.drop 4).take 8)),
           aggregate := ((s.drop 4).drop 8).headD 0 = 1,
           serial := (((s.drop 4).drop 8).drop 1).take 16 }

/-- Deserializer `LocalState.deserializeFromStream`: the tag loop followed by
the metadata tail; the collected delta buffers are the ones the source hands
to `cache.PutDelta`. -/
def deserializeFromStream (s : List Nat) : Option (List (List Nat) × Metadata) :=
  match deserializeLoop s.length s with
  | none => none
  | some (es, r) =>
    match parseMetadata r with
    | none => none
    | some md => some (es, md)

/-- Latest-state selection loop of `LocalState.UpdateSerialOr`: the first state
is always taken; afterwards a state replaces the candidate exactly when the
candidate's timestamp is strictly before its own (`Timestamp.Before`). -/
def updateSerialStep (acc : Option Metadata) (p : List Nat × Metadata) : Option Metadata :=
  match acc with
  | none => some p.2
  | some l => if l.timestamp < p.2.timestamp then some p.2 else some l

/-- Serial update `LocalState.UpdateSerialOr`: the serial of the latest state
by timestamp among `cache.GetStates()`, or the provided serial when the cache
holds no states. -/
def UpdateSerialOr (states : List (List Nat × Metadata)) (serial : List Nat) : List Nat :=
  match states.foldl updateSerialStep none with
  | some l => l.serial
  | none => serial

/-! ## Snapshot backup pipeline (`snapshot` package) -/

/-- Packfile assembly of `Snapshot.PutPackfile`: the serialized data section,
the encrypted index, the encrypted footer, and finally the 4-byte
little-endian length of the encrypted footer. The encrypted index and footer
are taken as inputs since `repo.EncodeBuffer` lives outside the examined
source. -/
def PutPackfile (serializedData encryptedIndex encryptedFooter : List Nat) : List Nat :=
  serializedData ++ encryptedIndex ++ encryptedFooter ++
    u32le (encryptedFooter.length % 2 ^ 32)

/-- The mutable backup state of `BackupContext` that the scan-error dispatch
touches: the `aborted` latch, the abort reason, and the error B-tree contents
(path and error, errors identified by a numeric id). -/
structure BackupContext where
  aborted : Bool
  abortedReason : Option Nat
  errors : List (Str × Nat)
deriving DecidableEq

/-- A backup context before any scan result is processed. -/
def initBackupContext : BackupContext := ⟨false, none, []⟩

/-- Error recording `BackupContext.recordError`: insert the pathname and error
into the error B-tree. -/
def recordError (ctx : BackupContext) (p : Str) (e : Nat) : BackupContext :=
  { ctx with errors := ctx.errors ++ [(p, e)] }

/-- Scan-error dispatch of `Snapshot.importerJob`: a pathname equal to the
importer's root, or strictly shorter than it, latches the `aborted` flag and
stores the abort reason; any other pathname is recorded in the error
B-tree. -/
def processScanError (root : Str) (ctx : BackupContext) (p : Str) (e : Nat) : BackupContext :=
  if p = root ∨ p.length < root.length then
    { ctx with aborted := true, abortedReason := some e }
  else
    recordError ctx p e

/-- Outcome of `Snapshot.Backup`: the final check returns the abort reason
when the `aborted` latch is set, and otherwise proceeds to `Commit`. -/
inductive BackupOutcome where
  | committed : BackupOutcome
  | failed : Option Nat → BackupOutcome
deriving DecidableEq

/-- Final abort check of `Snapshot.Backup` (the `backupCtx.aborted.Load()`
test before the header is assembled and committed). -/
def backupOutcome (ctx : BackupContext) : BackupOutcome :=
  if ctx.aborted then .failed ctx.abortedReason else .committed

/-- Blob kinds used by the examined call sites (the `resources` package is
outside the examined source; the claims only need the kinds to be distinct). -/
inductive ResourceType where
  | RT_CHUNK : ResourceType
  | RT_OBJECT : ResourceType
deriving DecidableEq

/-- A chunk as `chunkify` records it: content MAC and `uint32` length (the
floating-point entropy field is reporting-only and not modelled). -/
structure Chunk where
  contentMAC : Nat
  length : Nat
deriving DecidableEq

/-- The state threaded through `chunkify`'s `processChunk` closure: the chunks
appended to the object, the bytes fed to the running object hasher, and the
`PutBlob` submissions handed to the packer. -/
structure ChunkifyState where
  chunks : List Chunk
  hashed : List Nat
  writes : List (ResourceType × Nat × List Nat)
deriving DecidableEq

/-- The result object of `chunkify`: its chunk list and content MAC. -/
structure Obj where
  chunks : List Chunk
  contentMAC : Nat
deriving DecidableEq

/-- The `processChunk` closure of `Snapshot.chunkify`: hash the chunk, append
it to the object, feed the object hasher, and submit the payload under kind
`RT_CHUNK` unless `snap.BlobExists(RT_CHUNK, mac)` already holds. The MAC
hasher `macOf` and the aggregate-state membership `agg` are abstract. -/
def processChunk (agg : ResourceType → Nat → Bool) (macOf : List Nat → Nat)
    (st : ChunkifyState) (data : List Nat) : ChunkifyState :=
  { chunks := st.chunks ++ [{ contentMAC := macOf data, length := data.length % 2 ^ 32 }],
    hashed := st.hashed ++ data,
    writes := st.writes ++
      (if agg .RT_CHUNK (macOf data) then [] else [(.RT_CHUNK, macOf data, data)]) }

/-- Size dispatch of `Snapshot.chunkify`: an empty file yields one empty
chunk; a file smaller than the configured chunking `MinSize` is read whole
into a single chunk; larger files go through the content-defined chunker,
abstracted as the split function `chunker`. Returns the assembled object and
the packer submissions. -/
def chunkify (agg : ResourceType → Nat → Bool) (macOf : List Nat → Nat)
    (chunker : List Nat → List (List Nat)) (minSize fileSize : Nat)
    (content : List Nat) : Obj × List (ResourceType × Nat × List Nat) :=
  let st0 : ChunkifyState := ⟨[], [], []⟩
  let st :=
    if fileSize = 0 then processChunk agg macOf st0 []
    else if fileSize < minSize then processChunk agg macOf st0 content
    else (chunker content).foldl (processChunk agg macOf) st0
  (⟨st.chunks, macOf st.hashed⟩, st.writes)

/-- Object submission step of `Snapshot.Backup`: the serialized object is
handed to the packer under kind `RT_OBJECT` only when
`snap.BlobExists(RT_OBJECT, objectMAC)` is false. -/
def putObjectStep (agg : ResourceType → Nat → Bool) (objectMAC : Nat)
    (data : List Nat) : List (ResourceType × Nat × List Nat) :=
  if agg .RT_OBJECT objectMAC then [] else [(.RT_OBJECT, objectMAC, data)]

/-- Modelled from the spec: `objects.FileInfo` is not under the examined
source; per the specification it carries mode, size, modification time,
device and inode. -/
structure FileInfo where
  mode : Nat
  size : Int
  mtime : Int
  dev : Nat
  ino : Nat
deriving DecidableEq

/-- Modelled from the spec: `FileInfo.Equal` returns true exactly when mode,
size, modification time, device and inode are all equal. -/
def FileInfo.Equal (a b : FileInfo) : Bool :=
  a.mode == b.mode && a.size == b.size && a.mtime == b.mtime &&
    a.dev == b.dev && a.ino == b.ino

/-- A VFS-cache record for a pathname: the `FileInfo` stored in the cached
entry, and, when the cached serialized object is present and unmarshals, the
MAC computed over those object bytes. -/
structure CachedEntry where
  fileInfo : FileInfo
  objectMAC : Option Nat
deriving DecidableEq

/-- VFS-cache reuse decision of `Snapshot.Backup` for a regular-file scan
record: the cached object is adopted only when the cached entry exists and
its stored `FileInfo` compares `Equal` to the record's; the file is then
re-chunkified exactly when no object was adopted or the aggregate state no
longer has an `RT_OBJECT` blob under its MAC. Returns whether `chunkify`
runs and the reused object MAC otherwise. -/
def vfsCacheDecision (agg : ResourceType → Nat → Bool)
    (cached : Option CachedEntry) (recordFI : FileInfo) : Bool × Option Nat :=
  let obj : Option Nat :=
    match cached with
    | none => none
    | some c => if FileInfo.Equal c.fileInfo recordFI then c.objectMAC else none
  match obj with
  | none => (true, none)
  | some m => if agg .RT_OBJECT m then (false, some m) else (true, none)

/-! ## Directory roll-up error counting (`Snapshot.Backup`) -/

/-- Go's `strings.Compare` restricted to "less than", character-wise. -/
def strLt : Str → Str → Bool
  | [], [] => false
  | [], _ :: _ => true
  | _ :: _, [] => false
  | a :: as, b :: bs => if a = b then strLt as bs else decide (a < b)

/-- The error-counting loop body of the roll-up: starting from the B-tree
iterator's position, count entries until one no longer extends the directory
path or has a `/` after it — the source `break`s in both cases. -/
def countErrsFrom (pfx : Str) : List Str → Nat
  | [] => 0
  | e :: rest =>
    if pfx.isPrefixOf e then
      if (e.drop pfx.length).contains '/' then 0
      else 1 + countErrsFrom pfx rest
    else 0

/-- B-tree `ScanFrom`: position the iterator at the first key not less than
the requested one, in the tree's ascending key order. -/
def ScanFrom (pfx : Str) (errs : List Str) : List Str :=
  errs.dropWhile (fun e => strLt e pfx)

/-- The per-directory key used both for the child scan and the error scan:
the directory path, with a trailing `/` appended unless it is the root. -/
def dirPfx (d : Str) : Str :=
  if d = ['/'] then d else d ++ ['/']

/-- Direct-child test of the sub-directory enumeration: the candidate extends
the parent's slash-terminated path by a non-empty component without a `/`. -/
def isDirectChild (pfx : Str) (d : Str) : Bool :=
  pfx.isPrefixOf d && !(d.drop pfx.length).isEmpty &&
    !(d.drop pfx.length).contains '/'

/-- Modelled from the spec: of `vfs.Summary` (outside the examined source)
only the `below.errors` counter matters to the examined loop. -/
structure Summary where
  belowErrors : Nat
deriving DecidableEq

/-- Summary lookup in the scan cache (`GetSummary` of an already-processed
directory); an absent or undecodable summary is skipped by the source. -/
def lookupSummary (sums : List (Str × Summary)) (d : Str) : Option Summary :=
  (sums.find? (fun p => p.1 == d)).map (·.2)

/-- Error roll-up of `Snapshot.Backup`, restricted to the error counters:
directories arrive in the scan cache's descending path order; each directory
counts its direct errors with the source's loop over `erridx.ScanFrom` and
then, per `Summary.UpdateBelow` (modelled from the spec: the parent's
`below.errors` accumulates each child directory's `below.errors`), adds the
previously stored summaries of its direct child directories. `errs` is the
error B-tree's ascending key list. -/
def rollupErrors (dirs : List Str) (errs : List Str) : List (Str × Summary) :=
  dirs.foldl (fun sums d =>
    let pfx := dirPfx d
    let direct := countErrsFrom pfx (ScanFrom pfx errs)
    let fromChildren := (dirs.filter (isDirectChild pfx)).foldl (fun acc c =>
      match lookupSummary sums c with
      | none => acc
      | some s => acc + s.belowErrors) 0
    sums ++ [(d, ⟨direct + fromChildren⟩)]) []

/-- The root summary captured by the roll-up (`dirPath == "/"`). -/
def rollupRoot (dirs : List Str) (errs : List Str) : Option Summary :=
  lookupSummary (rollupErrors dirs errs) ['/']

/-! ## Scan cache (`caching` package) -/

/-- The LevelDB contents backing a `ScanCache`, as a key-value association
list. -/
abbrev DB := List (Str × List Nat)

/-- Raw LevelDB lookup: the stored value, or `ErrNotFound` as `none`. -/
def dbGet (db : DB) (k : Str) : Option (List Nat) :=
  (db.find? (fun p => p.1 == k)).map (·.2)

/-- Key construction `fmt.Sprintf("%s:%s", prefix, key)` of the scan cache. -/
def mkKey (pfx key : Str) : Str :=
  pfx ++ ':' :: key

/-- Internal `ScanCache.get`: `leveldb.ErrNotFound` is mapped to a `nil`
result with a `nil` error; a found value is returned as-is. -/
def ScanCacheGet (db : DB) (pfx key : Str) : Except String (Option (List Nat)) :=
  match dbGet db (mkKey pfx key) with
  | none => .ok none
  | some v => .ok (some v)

/-- Accessor `ScanCache.GetFile`. -/
def GetFile (db : DB) (file : Str) : Except String (Option (List Nat)) :=
  ScanCacheGet db "__file__".toList file

/-- Accessor `ScanCache.GetDirectory`. -/
def GetDirectory (db : DB) (directory : Str) : Except String (Option (List Nat)) :=
  ScanCacheGet db "__directory__".toList directory

/-- Pathname normalization shared by the checksum and summary accessors:
`strings.TrimSuffix(pathname, "/")`, with the empty result replaced by
`"/"`. -/
def trimPath (p : Str) : Str :=
  let q := if p.getLast? = some '/' then p.dropLast else p
  if q.isEmpty then ['/'] else q

/-- Accessor `ScanCache.GetSummary`. -/
def GetSummary (db : DB) (pathname : Str) : Except String (Option (List Nat)) :=
  ScanCacheGet db "__summary__".toList (trimPath pathname)

/-- Accessor `ScanCache.GetChecksum`: a result whose length is not 32 — in
particular the `nil` result of a missing key — is an error. -/
def GetChecksum (db : DB) (pathname : Str) : Except String (List Nat) :=
  match ScanCacheGet db "__checksum__".toList (trimPath pathname) with
  | .error e => .error e
  | .ok d =>
    let data := d.getD []
    if data.length ≠ 32 then .error "invalid checksum length"
    else .ok data

/-! ## Concrete instances used by the witnesses -/

/-- A concrete well-formed delta entry. -/
def wDE : DeltaEntry :=
  ⟨2, List.replicate 32 1, ⟨List.replicate 32 2, 70000, 9⟩⟩

/-- Concrete well-formed metadata. -/
def wMD : Metadata := ⟨100, -5, true, List.replicate 16 3⟩

/-- A concrete aggregate-state membership function: only `(RT_OBJECT, 99)` is
present. -/
def aggW : ResourceType → Nat → Bool :=
  fun t m => t == ResourceType.RT_OBJECT && m == 99

/-- A concrete stand-in MAC function. -/
def macW : List Nat → Nat := fun l => l.sum

/-- A concrete stand-in content-defined chunker. -/
def chkW : List Nat → List (List Nat) := fun l => [l]

/-! ## Byte-primitive lemmas -/

theorem u32le_length (n : Nat) : (u32le n).length = 4 := rfl

theorem u64le_length (n : Nat) : (u64le n).length = 8 := rfl

theorem leNat_u32le (n : Nat) (h : n < 2 ^ 32) : leNat (u32le n) = n := by
  simp only [u32le, leNat]
  omega

theorem leNat_u64le (n : Nat) (h : n < 2 ^ 64) : leNat (u64le n) = n := by
  simp only [u64le, leNat]
  omega

theorem int64ToUint64_lt (t : Int) : int64ToUint64 t < 2 ^ 64 := by
  unfold int64ToUint64
  omega

theorem uint64_int64_roundtrip (t : Int) (h1 : -(2 ^ 63) ≤ t) (h2 : t < 2 ^ 63) :
    uint64ToInt64 (int64ToUint64 t) = t := by
  unfold uint64ToInt64 int64ToUint64
  split <;> omega

/-! ## Delta-entry codec lemmas -/

theorem ToBytes_length (de : DeltaEntry) (h : de.WF) : de.ToBytes.length = 73 := by
  obtain ⟨-, hb, hp, -, -⟩ := h
  simp [DeltaEntry.ToBytes, hb, hp, u32le]

theorem DeltaEntryFromBytes_ToBytes (de : DeltaEntry) (h : de.WF) :
    DeltaEntryFromBytes de.ToBytes = some de := by
  obtain ⟨ht, hb, hp, ho, hl⟩ := h
  obtain ⟨typ, blob, ⟨pf, o, l⟩⟩ := de
  simp only at ht hb hp ho hl
  unfold DeltaEntry.ToBytes
  simp only [List.cons_append, List.nil_append, List.append_assoc]
  simp only [DeltaEntryFromBytes]
  rw [List.drop_left' hb, List.take_left' hb, List.drop_left' hp, List.take_left' hp,
    List.drop_left' (u32le_length o), List.take_left' (u32le_length o),
    List.take_of_length_le (le_of_eq (u32le_length l))]
  rw [if_neg (by simp [hb, hp, u32le_length]), if_neg (by simp [hp, u32le_length]),
    if_neg (by simp [u32le_length])]
  rw [leNat_u32le o ho, leNat_u32le l hl, Nat.mod_eq_of_lt ht]

theorem DeltaEntryFromBytes_total (buf : List Nat) (h : buf.length = 73) :
    ∃ de, DeltaEntryFromBytes buf = some de := by
  match buf, h with
  | t :: rest, h =>
    have hr : rest.length = 72 := by simpa using h
    simp only [DeltaEntryFromBytes]
    rw [if_neg (by omega), if_neg (by simp [hr]), if_neg (by simp [hr])]
    exact ⟨_, rfl⟩

/-! ## State-stream codec lemmas -/

theorem deserializeLoop_cons (t : Nat) (e rest : List Nat) (fuel : Nat)
    (ht : t ≠ ET_METADATA) (he : e.length = 73) :
    deserializeLoop (fuel + 1) (t :: (e ++ rest)) =
      (deserializeLoop fuel rest).map (fun p => (e :: p.1, p.2)) := by
  obtain ⟨de, hde⟩ := DeltaEntryFromBytes_total e he
  simp only [deserializeLoop]
  rw [if_neg ht, if_pos (by simp [he]), List.take_left' he, List.drop_left' he, hde]
  cases h : deserializeLoop fuel rest with
  | none => rfl
  | some p => cases p; rfl

theorem deserializeLoop_encode (deltas : List (List Nat)) :
    ∀ (fuel : Nat) (tail : List Nat), (∀ e ∈ deltas, e.length = 73) →
      ((deltas.map (fun e => ET_LOCATIONS :: e)).flatten ++ ET_METADATA :: tail).length ≤ fuel →
      deserializeLoop fuel
        ((deltas.map (fun e => ET_LOCATIONS :: e)).flatten ++ ET_METADATA :: tail) =
        some (deltas, tail) := by
  induction deltas with
  | nil =>
    intro fuel tail _ hfuel
    simp only [List.map_nil, List.flatten_nil, List.nil_append] at hfuel ⊢
    cases fuel with
    | zero => simp at hfuel
    | succ f => simp [deserializeLoop, ET_METADATA]
  | cons e es ih =>
    intro fuel tail hwf hfuel
    have hmem : e.length = 73 := hwf e (List.mem_cons_self e es)
    have hassoc : ((e :: es).map (fun x => ET_LOCATIONS :: x)).flatten ++ ET_METADATA :: tail =
        ET_LOCATIONS :: (e ++ ((es.map (fun x => ET_LOCATIONS :: x)).flatten ++
          ET_METADATA :: tail)) := by
      simp [List.flatten_cons]
    rw [hassoc] at hfuel ⊢
    cases fuel with
    | zero => simp at hfuel
    | succ f =>
      rw [deserializeLoop_cons ET_LOCATIONS e _ f (by decide) hmem]
      rw [ih f tail (fun x hx => hwf x (List.mem_cons_of_mem e hx))
        (by simp [hmem] at hfuel ⊢; omega)]
      rfl

theorem parseMetadata_encode (md : Metadata) (h : md.WF) :
    parseMetadata (u32le md.version ++ u64le (int64ToUint64 md.timestamp) ++
      [if md.aggregate then 1 else 0] ++ md.serial) = some md := by
  obtain ⟨hv, ht1, ht2, hs⟩ := h
  obtain ⟨v, ts, ag, serial⟩ := md
  simp only at hv ht1 ht2 hs
  simp only [List.append_assoc, List.singleton_append]
  unfold parseMetadata
  rw [List.take_left' (u32le_length _), List.drop_left' (u32le_length _),
    List.take_left' (u64le_length _), List.drop_left' (u64le_length _)]
  rw [if_neg (by simp [u32le_length]), if_neg (by simp [u64le_length]),
    if_neg (by simp), if_neg (by simp [List.drop_succ_cons, List.drop_zero, hs])]
  rw [leNat_u32le v hv, leNat_u64le _ (int64ToUint64_lt ts),
    uint64_int64_roundtrip ts ht1 ht2]
  simp [List.take_of_length_le (le_of_eq hs)]

theorem deserializeFromStream_SerializeToStream (deltas : List (List Nat)) (md : Metadata)
    (hE : ∀ e ∈ deltas, e.length = 73) (hmd : md.WF) :
    deserializeFromStream (SerializeToStream deltas md) = some (deltas, md) := by
  unfold deserializeFromStream SerializeToStream
  rw [deserializeLoop_encode deltas _ _ hE (le_refl _)]
  dsimp only
  rw [parseMetadata_encode md hmd]

/-- Claim C3: every delta entry serializes to exactly 73 bytes and parses back
to itself, and deserializing a stream produced by `SerializeToStream` yields
the same delta entries and metadata equal in version, nanosecond timestamp,
aggregate flag and serial. -/
theorem C3_state_stream_roundtrip (de : DeltaEntry) (deltas : List (List Nat)) (md : Metadata)
    (hde : de.WF) (hE : ∀ e ∈ deltas, e.length = 73) (hmd : md.WF) :
    de.ToBytes.length = 73 ∧ DeltaEntryFromBytes de.ToBytes = some de ∧
      deserializeFromStream (SerializeToStream deltas md) = some (deltas, md) :=
  ⟨ToBytes_length de hde, DeltaEntryFromBytes_ToBytes de hde,
    deserializeFromStream_SerializeToStream deltas md hE hmd⟩

theorem C3_state_stream_roundtrip_witness :
    wDE.WF ∧ (∀ e ∈ [wDE.ToBytes], e.length = 73) ∧ wMD.WF ∧
      (wDE.ToBytes.length = 73 ∧ DeltaEntryFromBytes wDE.ToBytes = some wDE ∧
        deserializeFromStream (SerializeToStream [wDE.ToBytes] wMD) =
          some ([wDE.ToBytes], wMD)) :=
  ⟨by decide, by decide, by decide,
    C3_state_stream_roundtrip wDE [wDE.ToBytes] wMD (by decide) (by decide) (by decide)⟩

/-- Claim C4, corrected: the deserializer does not reject unknown entry-type
tags — any tag byte other than the METADATA tag (the LOCATIONS tag, the
declared-but-unwritten TIMESTAMP tag, or any other value) causes the
following 73 bytes to be consumed as a delta entry, exactly as a LOCATIONS
tag would. -/
theorem C4_unknown_tag_consumed (t : Nat) (e rest : List Nat) (fuel : Nat)
    (ht : t ≠ ET_METADATA) (he : e.length = 73) :
    deserializeLoop (fuel + 1) (t :: (e ++ rest)) =
      (deserializeLoop fuel rest).map (fun p => (e :: p.1, p.2)) :=
  deserializeLoop_cons t e rest fuel ht he

theorem C4_unknown_tag_consumed_witness :
    ET_TIMESTAMP ≠ ET_METADATA ∧ (List.replicate 73 5).length = 73 ∧
      deserializeLoop (1 + 1) (ET_TIMESTAMP :: (List.replicate 73 5 ++ [ET_METADATA])) =
        (deserializeLoop 1 [ET_METADATA]).map (fun p => (List.replicate 73 5 :: p.1, p.2)) :=
  ⟨by decide, by decide,
    C4_unknown_tag_consumed ET_TIMESTAMP (List.replicate 73 5) [ET_METADATA] 1
      (by decide) (by decide)⟩

/-- Claim C4's counterexample: a stream whose first entry-type tag is
`ET_TIMESTAMP` — neither the LOCATIONS nor the METADATA tag — deserializes
successfully instead of failing with an error. -/
theorem C4_unknown_tag_counterexample :
    ET_TIMESTAMP ≠ ET_LOCATIONS ∧ ET_TIMESTAMP ≠ ET_METADATA ∧
      (deserializeFromStream (ET_TIMESTAMP :: (List.replicate 73 5 ++
        (ET_METADATA :: (u32le 100 ++ u64le 0 ++ [0] ++
          List.replicate 16 0))))).isSome = true := by
  decide

/-! ## Serial-inheritance lemmas -/

theorem updateSerial_aux (l : List (List Nat × Metadata)) :
    ∀ m : Metadata, ∃ r : Metadata,
      l.foldl updateSerialStep (some m) = some r ∧
      (r = m ∨ ∃ p ∈ l, r = p.2) ∧ m.timestamp ≤ r.timestamp ∧
      ∀ p ∈ l, p.2.timestamp ≤ r.timestamp := by
  induction l with
  | nil =>
    intro m
    exact ⟨m, rfl, Or.inl rfl, le_refl _, by simp⟩
  | cons p l ih =>
    intro m
    have hstep : updateSerialStep (some m) p =
        some (if m.timestamp < p.2.timestamp then p.2 else m) := by
      dsimp only [updateSerialStep]
      split <;> rfl
    rw [List.foldl_cons, hstep]
    obtain ⟨r, h1, h2, h3, h4⟩ := ih (if m.timestamp < p.2.timestamp then p.2 else m)
    refine ⟨r, h1, ?_, ?_, ?_⟩
    · by_cases hc : m.timestamp < p.2.timestamp
      · rw [if_pos hc] at h2
        rcases h2 with h2 | ⟨q, hq, hrq⟩
        · exact Or.inr ⟨p, List.mem_cons_self p l, h2⟩
        · exact Or.inr ⟨q, List.mem_cons_of_mem p hq, hrq⟩
      · rw [if_neg hc] at h2
        rcases h2 with h2 | ⟨q, hq, hrq⟩
        · exact Or.inl h2
        · exact Or.inr ⟨q, List.mem_cons_of_mem p hq, hrq⟩
    · by_cases hc : m.timestamp < p.2.timestamp
      · rw [if_pos hc] at h3
        exact le_trans (le_of_lt hc) h3
      · rw [if_neg hc] at h3
        exact h3
    · intro q hq
      rcases List.mem_cons.mp hq with hq | hq
      · subst hq
        by_cases hc : m.timestamp < q.2.timestamp
        · rw [if_pos hc] at h3
          exact h3
        · rw [if_neg hc] at h3
          exact le_trans (le_of_not_lt hc) h3
      · exact h4 q hq

/-- Claim C9: `UpdateSerialOr` adopts the serial of a cached state whose
metadata timestamp is at least that of every other cached state (the most
recent one), and falls back to the provided serial only when the cache holds
no states. -/
theorem C9_serial_inheritance (states : List (List Nat × Metadata)) (serial : List Nat) :
    (states = [] → UpdateSerialOr states serial = serial) ∧
    (states ≠ [] → ∃ p ∈ states, UpdateSerialOr states serial = p.2.serial ∧
      ∀ q ∈ states, q.2.timestamp ≤ p.2.timestamp) := by
  constructor
  · intro h
    subst h
    rfl
  · intro h
    obtain ⟨x, xs, rfl⟩ := List.exists_cons_of_ne_nil h
    have hfirst : (x :: xs).foldl updateSerialStep none =
        xs.foldl updateSerialStep (some x.2) := rfl
    obtain ⟨r, h1, h2, h3, h4⟩ := updateSerial_aux xs x.2
    have hres : UpdateSerialOr (x :: xs) serial = r.serial := by
      unfold UpdateSerialOr
      rw [hfirst, h1]
    rcases h2 with h2 | ⟨q, hq, hrq⟩
    · subst h2
      exact ⟨x, List.mem_cons_self x xs, hres, by
        intro q hq
        rcases List.mem_cons.mp hq with hq | hq
        · subst hq; exact le_refl _
        · exact h4 q hq⟩
    · subst hrq
      exact ⟨q, List.mem_cons_of_mem x hq, hres, by
        intro q' hq'
        rcases List.mem_cons.mp hq' with hq' | hq'
        · subst hq'; exact h3
        · exact h4 q' hq'⟩

theorem C9_serial_inheritance_witness :
    ([(List.replicate 32 0, wMD)] : List (List Nat × Metadata)) ≠ [] ∧
      ∃ p ∈ [(List.replicate 32 0, wMD)],
        UpdateSerialOr [(List.replicate 32 0, wMD)] (List.replicate 16 9) = p.2.serial ∧
        ∀ q ∈ [(List.replicate 32 0, wMD)], q.2.timestamp ≤ p.2.timestamp :=
  ⟨by decide,
    (C9_serial_inheritance [(List.replicate 32 0, wMD)] (List.replicate 16 9)).2
      (by decide)⟩

/-! ## Packfile trailer (claim C1) -/

/-- Claim C1's counterexample: for a 3-byte encoded footer the assembled
packfile's last byte is the high byte of the little-endian length field, 0,
not the footer's byte length 3 — the file does not end with a 1-byte
footer-length indicator, nor is any version trailer appended. -/
theorem C1_trailer_counterexample :
    (PutPackfile [] [] [9, 9, 9]).getLast? ≠ some (([9, 9, 9] : List Nat).length) := by
  decide

/-- Claim C1, corrected: the file assembled and written by `PutPackfile` is
the data section, the encrypted index, the encrypted footer, and a final
4-byte little-endian `uint32` equal to the encrypted footer's byte length;
its last 4 (not 5) bytes are that length field and no version trailer is
written. -/
theorem C1_trailer (d i f : List Nat) (hf : f.length < 2 ^ 32) :
    PutPackfile d i f = d ++ i ++ f ++ u32le f.length ∧
      lastN 4 (PutPackfile d i f) = u32le f.length := by
  have hmod : f.length % 2 ^ 32 = f.length := Nat.mod_eq_of_lt hf
  constructor
  · unfold PutPackfile
    rw [hmod]
  · unfold PutPackfile lastN
    rw [hmod]
    have hshape : d ++ i ++ f ++ u32le f.length = (d ++ i ++ f) ++ u32le f.length := by
      simp [List.append_assoc]
    rw [hshape, List.length_append, u32le_length, Nat.add_sub_cancel, List.drop_left]

theorem C1_trailer_witness :
    ([1, 2] : List Nat).length < 2 ^ 32 ∧
      (PutPackfile [7] [8] [1, 2] = [7] ++ [8] ++ [1, 2] ++ u32le 2 ∧
        lastN 4 (PutPackfile [7] [8] [1, 2]) = u32le 2) :=
  ⟨by decide, C1_trailer [7] [8] [1, 2] (by decide)⟩

/-! ## Scan-error dispatch (claim C2) -/

/-- Claim C2's counterexample: with importer root `/ab`, a scan error on the
non-root pathname `/x` (shorter than the root) latches the abort flag and is
not recorded in the error B-tree, contradicting the claim that every
non-root scan error is recorded and does not abort. -/
theorem C2_rooterr_counterexample :
    "/x".toList ≠ "/ab".toList ∧
      (processScanError "/ab".toList initBackupContext "/x".toList 7).aborted = true ∧
      (processScanError "/ab".toList initBackupContext "/x".toList 7).errors = [] := by
  decide

/-- Claim C2, corrected: a scan error whose pathname equals the importer's
root — or is strictly shorter than the root — latches the abort flag, sets
the abort reason, records nothing, and makes `Backup` return that error
instead of committing; a scan error on a non-root pathname at least as long
as the root is recorded as an `ErrorItem` in the error B-tree and leaves the
abort latch untouched. -/
theorem C2_rooterr (root p : Str) (e : Nat) (ctx : BackupContext) :
    (p = root ∨ p.length < root.length →
      (processScanError root ctx p e).aborted = true ∧
      (processScanError root ctx p e).abortedReason = some e ∧
      (processScanError root ctx p e).errors = ctx.errors ∧
      backupOutcome (processScanError root ctx p e) = .failed (some e)) ∧
    (p ≠ root → root.length ≤ p.length →
      processScanError root ctx p e = { ctx with errors := ctx.errors ++ [(p, e)] } ∧
      (processScanError root ctx p e).aborted = ctx.aborted) := by
  constructor
  · intro h
    unfold processScanError
    rw [if_pos h]
    exact ⟨rfl, rfl, rfl, rfl⟩
  · intro h1 h2
    unfold processScanError
    rw [if_neg (by push_neg; exact ⟨h1, h2⟩)]
    exact ⟨rfl, rfl⟩

theorem C2_rooterr_witness :
    (("/a".toList : Str) = "/a".toList ∨ ("/a".toList : Str).length < ("/a".toList : Str).length) ∧
      ((processScanError "/a".toList initBackupContext "/a".toList 5).aborted = true ∧
        (processScanError "/a".toList initBackupContext "/a".toList 5).abortedReason = some 5 ∧
        (processScanError "/a".toList initBackupContext "/a".toList 5).errors =
          initBackupContext.errors ∧
        backupOutcome (processScanError "/a".toList initBackupContext "/a".toList 5) =
          .failed (some 5)) ∧
      ("/ab".toList : Str) ≠ "/a".toList ∧ ("/a".toList : Str).length ≤ ("/ab".toList : Str).length ∧
      (processScanError "/a".toList initBackupContext "/ab".toList 6 =
          { initBackupContext with errors := initBackupContext.errors ++ [("/ab".toList, 6)] } ∧
        (processScanError "/a".toList initBackupContext "/ab".toList 6).aborted =
          initBackupContext.aborted) :=
  ⟨Or.inl rfl,
    (C2_rooterr "/a".toList "/a".toList 5 initBackupContext).1 (Or.inl rfl),
    by decide, by decide,
    (C2_rooterr "/a".toList "/ab".toList 6 initBackupContext).2 (by decide) (by decide)⟩

/-! ## Chunker boundary cases (claim C5) -/

/-- Claim C5: an empty file yields exactly one chunk of length 0, and a
non-empty file smaller than the configured chunking `MinSize` yields exactly
one chunk whose length is the file size (the whole file read at once). -/
theorem C5_chunkify_boundaries (agg : ResourceType → Nat → Bool) (macOf : List Nat → Nat)
    (chunker : List Nat → List (List Nat)) (minSize fileSize : Nat) (content : List Nat)
    (hlen : content.length = fileSize) (hsz : fileSize < 2 ^ 32) :
    (fileSize = 0 →
      (chunkify agg macOf chunker minSize fileSize content).1.chunks =
        [{ contentMAC := macOf [], length := 0 }]) ∧
    (0 < fileSize → fileSize < minSize →
      (chunkify agg macOf chunker minSize fileSize content).1.chunks =
        [{ contentMAC := macOf content, length := fileSize }]) := by
  constructor
  · intro h0
    unfold chunkify
    dsimp only
    rw [if_pos h0]
    simp [processChunk]
  · intro hpos hlt
    unfold chunkify
    dsimp only
    rw [if_neg (by omega), if_pos hlt]
    simp [processChunk, hlen, Nat.mod_eq_of_lt hsz]
    omega

theorem C5_chunkify_boundaries_witness :
    (([5] : List Nat).length = 1 ∧ 1 < 2 ^ 32) ∧ 0 < 1 ∧ 1 < 4 ∧
      (chunkify aggW macW chkW 4 1 [5]).1.chunks =
        [{ contentMAC := macW [5], length := 1 }] :=
  ⟨⟨by decide, by decide⟩, by decide, by decide,
    (C5_chunkify_boundaries aggW macW chkW 4 1 [5] (by decide) (by decide)).2
      (by decide) (by decide)⟩

/-! ## Deduplication against the aggregate state (claim C6) -/

theorem processChunk_writes (agg : ResourceType → Nat → Bool) (macOf : List Nat → Nat)
    (st : ChunkifyState) (data : List Nat)
    (h : ∀ w ∈ st.writes, w.1 = ResourceType.RT_CHUNK ∧
      agg ResourceType.RT_CHUNK w.2.1 = false) :
    ∀ w ∈ (processChunk agg macOf st data).writes,
      w.1 = ResourceType.RT_CHUNK ∧ agg ResourceType.RT_CHUNK w.2.1 = false := by
  intro w hw
  dsimp only [processChunk] at hw
  rcases List.mem_append.mp hw with hw | hw
  · exact h w hw
  · by_cases hc : agg ResourceType.RT_CHUNK (macOf data) = true
    · rw [if_pos hc] at hw
      exact absurd hw (List.not_mem_nil w)
    · rw [if_neg hc] at hw
      have hw' : w = (ResourceType.RT_CHUNK, macOf data, data) := by simpa using hw
      subst hw'
      exact ⟨rfl, by simpa using hc⟩

theorem foldl_processChunk_writes (agg : ResourceType → Nat → Bool) (macOf : List Nat → Nat)
    (l : List (List Nat)) :
    ∀ st : ChunkifyState,
      (∀ w ∈ st.writes, w.1 = ResourceType.RT_CHUNK ∧
        agg ResourceType.RT_CHUNK w.2.1 = false) →
      ∀ w ∈ (l.foldl (processChunk agg macOf) st).writes,
        w.1 = ResourceType.RT_CHUNK ∧ agg ResourceType.RT_CHUNK w.2.1 = false := by
  induction l with
  | nil =>
    intro st h
    simpa using h
  | cons d l ih =>
    intro st h
    rw [List.foldl_cons]
    exact ih (processChunk agg macOf st d) (processChunk_writes agg macOf st d h)

/-- Claim C6: every chunk payload `chunkify` submits to the packer is under
kind CHUNK and only when the aggregate state lacks that `(CHUNK, mac)` entry
— an existing entry produces no write — and the serialized object is
submitted under kind OBJECT exactly when the aggregate state lacks
`(OBJECT, object_mac)`. -/
theorem C6_dedup (agg : ResourceType → Nat → Bool) (macOf : List Nat → Nat)
    (chunker : List Nat → List (List Nat)) (minSize fileSize : Nat) (content : List Nat)
    (objectMAC : Nat) (data : List Nat) :
    (∀ w ∈ (chunkify agg macOf chunker minSize fileSize content).2,
      w.1 = ResourceType.RT_CHUNK ∧ agg ResourceType.RT_CHUNK w.2.1 = false) ∧
    (agg ResourceType.RT_OBJECT objectMAC = true →
      putObjectStep agg objectMAC data = []) ∧
    (agg ResourceType.RT_OBJECT objectMAC = false →
      putObjectStep agg objectMAC data = [(ResourceType.RT_OBJECT, objectMAC, data)]) := by
  have hbase : ∀ w ∈ (⟨[], [], []⟩ : ChunkifyState).writes,
      w.1 = ResourceType.RT_CHUNK ∧ agg ResourceType.RT_CHUNK w.2.1 = false := by
    intro w hw
    simp at hw
  refine ⟨?_, ?_, ?_⟩
  · unfold chunkify
    dsimp only
    split
    · exact processChunk_writes agg macOf _ [] hbase
    · split
      · exact processChunk_writes agg macOf _ content hbase
      · exact foldl_processChunk_writes agg macOf (chunker content) _ hbase
  · intro h
    unfold putObjectStep
    rw [if_pos h]
  · intro h
    unfold putObjectStep
    rw [if_neg (by simp [h])]

theorem C6_dedup_witness :
    (∀ w ∈ (chunkify aggW macW chkW 4 2 [5, 6]).2,
      w.1 = ResourceType.RT_CHUNK ∧ aggW ResourceType.RT_CHUNK w.2.1 = false) ∧
    (aggW ResourceType.RT_OBJECT 99 = true ∧ putObjectStep aggW 99 [1] = []) ∧
    (aggW ResourceType.RT_OBJECT 7 = false ∧
      putObjectStep aggW 7 [1] = [(ResourceType.RT_OBJECT, 7, [1])]) :=
  ⟨(C6_dedup aggW macW chkW 4 2 [5, 6] 99 [1]).1,
    ⟨by decide, (C6_dedup aggW macW chkW 4 2 [5, 6] 99 [1]).2.1 (by decide)⟩,
    ⟨by decide, (C6_dedup aggW macW chkW 4 2 [5, 6] 7 [1]).2.2 (by decide)⟩⟩

/-! ## VFS-cache reuse (claim C7) -/

/-- Claim C7: a regular file skips re-chunking and reuses the cached object
MAC exactly when the cached entry exists, its stored `FileInfo` compares
`Equal` to the record's, the cached serialized object is available, and the
aggregate state still holds an OBJECT blob under that MAC; with no cached
entry, an unequal `FileInfo`, a missing cached object, or the OBJECT blob
absent from the aggregate state, the file is chunkified anew. -/
theorem C7_vfs_reuse (agg : ResourceType → Nat → Bool) (cached : Option CachedEntry)
    (fi : FileInfo) :
    (∀ c m, cached = some c → FileInfo.Equal c.fileInfo fi = true →
      c.objectMAC = some m → agg ResourceType.RT_OBJECT m = true →
      vfsCacheDecision agg cached fi = (false, some m)) ∧
    (cached = none → vfsCacheDecision agg cached fi = (true, none)) ∧
    (∀ c, cached = some c → FileInfo.Equal c.fileInfo fi = false →
      vfsCacheDecision agg cached fi = (true, none)) ∧
    (∀ c, cached = some c → c.objectMAC = none →
      vfsCacheDecision agg cached fi = (true, none)) ∧
    (∀ c m, cached = some c → c.objectMAC = some m →
      agg ResourceType.RT_OBJECT m = false →
      vfsCacheDecision agg cached fi = (true, none)) := by
  refine ⟨?_, ?_, ?_, ?_, ?_⟩
  · intro c m hc he hm ha
    subst hc
    simp [vfsCacheDecision, he, hm, ha]
  · intro hc
    subst hc
    simp [vfsCacheDecision]
  · intro c hc he
    subst hc
    simp [vfsCacheDecision, he]
  · intro c hc hm
    subst hc
    by_cases he : FileInfo.Equal c.fileInfo fi = true
    · simp [vfsCacheDecision, he, hm]
    · simp [vfsCacheDecision, he]
  · intro c m hc hm ha
    subst hc
    by_cases he : FileInfo.Equal c.fileInfo fi = true
    · simp [vfsCacheDecision, he, hm, ha]
    · simp [vfsCacheDecision, he]

theorem C7_vfs_reuse_witness :
    ((some ⟨⟨1, 2, 3, 4, 5⟩, some 99⟩ : Option CachedEntry) = some ⟨⟨1, 2, 3, 4, 5⟩, some 99⟩ ∧
      FileInfo.Equal (⟨1, 2, 3, 4, 5⟩ : FileInfo) ⟨1, 2, 3, 4, 5⟩ = true ∧
      (⟨⟨1, 2, 3, 4, 5⟩, some 99⟩ : CachedEntry).objectMAC = some 99 ∧
      aggW ResourceType.RT_OBJECT 99 = true) ∧
      vfsCacheDecision aggW (some ⟨⟨1, 2, 3, 4, 5⟩, some 99⟩) ⟨1, 2, 3, 4, 5⟩ =
        (false, some 99) :=
  ⟨⟨rfl, by decide, rfl, by decide⟩,
    (C7_vfs_reuse aggW (some ⟨⟨1, 2, 3, 4, 5⟩, some 99⟩) ⟨1, 2, 3, 4, 5⟩).1
      ⟨⟨1, 2, 3, 4, 5⟩, some 99⟩ 99 rfl (by decide) rfl (by decide)⟩

/-! ## Scan-cache miss behaviour (claim C10) -/

/-- Claim C10: for a key absent from the scan cache, the internal `get` — and
with it `GetFile`, `GetDirectory` and `GetSummary` — returns nil data with a
nil error, while `GetChecksum` turns the nil result into an error through
its 32-byte length check. -/
theorem C10_scan_cache_miss (db : DB) (f d s c : Str)
    (hf : dbGet db (mkKey "__file__".toList f) = none)
    (hd : dbGet db (mkKey "__directory__".toList d) = none)
    (hs : dbGet db (mkKey "__summary__".toList (trimPath s)) = none)
    (hc : dbGet db (mkKey "__checksum__".toList (trimPath c)) = none) :
    GetFile db f = .ok none ∧ GetDirectory db d = .ok none ∧
      GetSummary db s = .ok none ∧
      GetChecksum db c = .error "invalid checksum length" := by
  refine ⟨?_, ?_, ?_, ?_⟩
  · unfold GetFile ScanCacheGet
    rw [hf]
  · unfold GetDirectory ScanCacheGet
    rw [hd]
  · unfold GetSummary ScanCacheGet
    rw [hs]
  · unfold GetChecksum ScanCacheGet
    rw [hc]
    rfl

theorem C10_scan_cache_miss_witness :
    (dbGet [] (mkKey "__file__".toList "/p".toList) = none ∧
      dbGet [] (mkKey "__directory__".toList "/p".toList) = none ∧
      dbGet [] (mkKey "__summary__".toList (trimPath "/p/".toList)) = none ∧
      dbGet [] (mkKey "__checksum__".toList (trimPath "/p/".toList)) = none) ∧
      (GetFile [] "/p".toList = .ok none ∧ GetDirectory [] "/p".toList = .ok none ∧
        GetSummary [] "/p/".toList = .ok none ∧
        GetChecksum [] "/p/".toList = .error "invalid checksum length") :=
  ⟨⟨rfl, rfl, rfl, rfl⟩,
    C10_scan_cache_miss [] "/p".toList "/p".toList "/p/".toList "/p/".toList
      rfl rfl rfl rfl⟩

/-! ## Roll-up error containment (claim C8) -/

/-- Claim C8 is contradicted by the source's counting loop: with directories
`/`, `/a`, `/a/b` and the two recorded non-root error paths `/a/b/c` and
`/a/x`, the roll-up's per-directory loop `break`s at `/a/b/c` while scanning
`/a` (its remainder `b/c` contains a `/`), so the direct-child error `/a/x`
is never counted anywhere and the root summary ends with `below.errors = 1`
instead of the claimed total of 2. -/
theorem C8_rollup_below_errors :
    (["/a/b/c".toList, "/a/x".toList] : List Str).length = 2 ∧
      rollupRoot ["/a/b".toList, "/a".toList, "/".toList]
        ["/a/b/c".toList, "/a/x".toList] = some { belowErrors := 1 } := by
  decide

end Plakar
